import Mathlib

/-!
Verification development for the LiquidityModels timestamp-normalization and
session-window core (`src/utils/time_utils.py`, `src/data_handler/market_data_loader.py`).

The Python code is shallowly embedded: calendar dates are represented by their
day ordinal (days since 1970-01-01), matching `whenever.Date` / `datetime.date`
(a Gregorian date is in bijection with its ordinal); wall-clock times carry
hour/minute/second; zoned datetimes carry local fields, a UTC offset in minutes,
and the zone name.  The external libraries used by the code (`whenever`, `pytz`,
`pandas.to_datetime`) are modelled on their documented behaviour for the zone
identifiers and string formats this repository exercises: the zone database
fragment covers `UTC` and the fixed target zone `America/New_York` with the
post-2007 US daylight-saving rule (spring forward at 02:00 local on the second
Sunday of March, fall back at 02:00 local on the first Sunday of November).
All machine arithmetic in the source is exact integer/rational arithmetic at
this granularity, so `Int`/`Nat`/`ℚ` are used directly.
-/

set_option maxRecDepth 4000

namespace LiquidityModels

/-! ## Calendar arithmetic (model of `whenever.Date` / `datetime.date`)

`daysFromCivil`/`civilFromDays` are the standard Gregorian conversions between
a (year, month, day) triple and the day ordinal relative to 1970-01-01. -/

/-- Day ordinal (days since 1970-01-01) of a Gregorian date. -/
def daysFromCivil (y m d : Int) : Int :=
  let y' := if m ≤ 2 then y - 1 else y
  let era := (if 0 ≤ y' then y' else y' - 399) / 400
  let yoe := y' - era * 400
  let mp := if 2 < m then m - 3 else m + 9
  let doy := (153 * mp + 2) / 5 + d - 1
  let doe := yoe * 365 + yoe / 4 - yoe / 100 + doy
  era * 146097 + doe - 719468

/-- Gregorian (year, month, day) of a day ordinal. -/
def civilFromDays (z : Int) : Int × Int × Int :=
  let z' := z + 719468
  let era := (if 0 ≤ z' then z' else z' - 146096) / 146097
  let doe := z' - era * 146097
  let yoe := (doe - doe / 1460 + doe / 36524 - doe / 146096) / 365
  let y := yoe + era * 400
  let doy := doe - (365 * yoe + yoe / 4 - yoe / 100)
  let mp := (5 * doy + 2) / 153
  let d := doy - (153 * mp + 2) / 5 + 1
  let m := if mp < 10 then mp + 3 else mp - 9
  (if m ≤ 2 then y + 1 else y, m, d)

/-- Year of a day ordinal. -/
def yearOf (o : Int) : Int := (civilFromDays o).1

/-- Python `date.weekday()` on a day ordinal: Monday = 0 .. Sunday = 6.
1970-01-01 (ordinal 0) was a Thursday (= 3). -/
def pyWeekday (o : Int) : Int := (o + 3) % 7

/-- `whenever.Date.previous_or_same(whenever.Weekday.SUNDAY)` on ordinals:
the closest date on or before `o` whose weekday is Sunday. -/
def prevOrSameSunday (o : Int) : Int := o - ((pyWeekday o + 1) % 7)

/-! ## Wall times, plain datetimes and zoned datetimes -/

/-- Model of `whenever.Time`: an hour/minute/second wall time.  The library
validates ranges on construction; values used here are always in range, and
its total order coincides with the order of seconds-of-day. -/
structure Time where
  hour : Nat
  minute : Nat
  second : Nat
deriving DecidableEq, Repr

def Time.toSec (t : Time) : Nat := t.hour * 3600 + t.minute * 60 + t.second

/-- Model of `whenever.PlainDateTime` / a naive `datetime.datetime`:
a calendar date (as ordinal) plus a wall time, no zone attached. -/
structure PlainDT where
  dateOrd : Int
  hour : Nat
  minute : Nat
  second : Nat
deriving DecidableEq, Repr

/-- Seconds-of-day of a plain datetime's wall time. -/
def PlainDT.secOfDay (p : PlainDT) : Int := (p.hour * 3600 + p.minute * 60 + p.second : Nat)

/-- The naive datetime read as seconds on a zone-free local scale. -/
def PlainDT.localSec (p : PlainDT) : Int := p.dateOrd * 86400 + p.secOfDay

def PlainDT.time (p : PlainDT) : Time := ⟨p.hour, p.minute, p.second⟩

/-- Model of `whenever.ZonedDateTime` (and of an aware `datetime`): local wall
fields in the named zone plus the signed UTC offset (minutes) in force there. -/
structure ZonedDateTime where
  dateOrd : Int
  hour : Nat
  minute : Nat
  second : Nat
  offMin : Int
  tz : String
deriving DecidableEq, Repr

def ZonedDateTime.local (z : ZonedDateTime) : PlainDT := ⟨z.dateOrd, z.hour, z.minute, z.second⟩

/-- The physical instant, in seconds since the epoch.  Two zoned datetimes are
equal as instants (the library's `==` on aware types) iff these agree. -/
def ZonedDateTime.instant (z : ZonedDateTime) : Int := z.local.localSec - z.offMin * 60

def ZonedDateTime.time (z : ZonedDateTime) : Time := ⟨z.hour, z.minute, z.second⟩

/-- The fixed target zone identifier (`TARGET_TZ_STR` in the source). -/
def TARGET_TZ_STR : String := "America/New_York"

/-! ## The America/New_York zone rules (fragment of the IANA database)

Post-2007 US rule: EST is UTC-05:00, EDT is UTC-04:00; DST starts at 02:00
local standard time on the second Sunday of March (the local hour [02:00,03:00)
is skipped) and ends at 02:00 local daylight time on the first Sunday of
November (the local hour [01:00,02:00) repeats). -/

/-- Ordinal of the second Sunday of March of year `y`. -/
def secondSundayMarchOrd (y : Int) : Int :=
  let mar1 := daysFromCivil y 3 1
  mar1 + (6 - pyWeekday mar1) + 7

/-- Ordinal of the first Sunday of November of year `y`. -/
def firstSundayNovOrd (y : Int) : Int :=
  let nov1 := daysFromCivil y 11 1
  nov1 + (6 - pyWeekday nov1)

/-- How a local (naive) time resolves in a zone with DST: uniquely with a
given offset, skipped (spring-forward gap), or repeated (fall-back overlap). -/
inductive LocalType where
  | unique (offMin : Int)
  | skipped
  | repeated
deriving DecidableEq, Repr

/-- Classify a New York local wall-clock reading. -/
def nyClassifyLocal (dateOrd secOfDay : Int) : LocalType :=
  let y := yearOf dateOrd
  let sprO := secondSundayMarchOrd y
  let fallO := firstSundayNovOrd y
  let L := dateOrd * 86400 + secOfDay
  if sprO * 86400 + 7200 ≤ L ∧ L < sprO * 86400 + 10800 then .skipped
  else if fallO * 86400 + 3600 ≤ L ∧ L < fallO * 86400 + 7200 then .repeated
  else if sprO * 86400 + 10800 ≤ L ∧ L < fallO * 86400 + 3600 then .unique (-240)
  else .unique (-300)

/-- Offset (minutes) of America/New_York at a physical instant `t` (seconds).
DST is in force from the second Sunday of March 07:00 UTC to the first Sunday
of November 06:00 UTC of the instant's UTC year. -/
def nyOffsetAtInstant (t : Int) : Int :=
  let y := yearOf (t.fdiv 86400)
  let sprU := secondSundayMarchOrd y * 86400 + 25200
  let fallU := firstSundayNovOrd y * 86400 + 21600
  if sprU ≤ t ∧ t < fallU then -240 else -300

/-- Split a seconds-of-day value into (hour, minute, second). -/
def secToHMS (n : Nat) : Nat × Nat × Nat := (n / 3600, n % 3600 / 60, n % 60)

/-- `whenever` `to_tz(NY_ZONEINFO)` from a physical instant: the instant
re-expressed in America/New_York wall-clock. -/
def instantToNY (t : Int) : ZonedDateTime :=
  let off := nyOffsetAtInstant t
  let L := t + off * 60
  let hms := secToHMS (L.fmod 86400).toNat
  ⟨L.fdiv 86400, hms.1, hms.2.1, hms.2.2, off, "America/New_York"⟩

/-! ## Zone database fragment -/

/-- The zones appearing in the repository's data and tests that this
development models concretely. -/
inductive TZRule where
  | utc
  | ny
deriving DecidableEq, Repr

/-- Lookup of a zone identifier, as `whenever`/`pytz` resolve zone names;
unknown names raise (modelled as `none`). -/
def zoneDB (s : String) : Option TZRule :=
  if s = "UTC" then some .utc
  else if s = "America/New_York" then some .ny
  else none

/-- Resolve a naive local reading in a zone rule (used by both
`assume_tz(..., disambiguate = 'raise')` and `pytz` `localize(is_dst = None)`). -/
def classifyLocal (tz : TZRule) (dateOrd secOfDay : Int) : LocalType :=
  match tz with
  | .utc => .unique 0
  | .ny => nyClassifyLocal dateOrd secOfDay

-- Sanity checks of the calendar model against known dates.
example : daysFromCivil 1970 1 1 = 0 := by decide
example : pyWeekday (daysFromCivil 1970 1 1) = 3 := by decide
example : civilFromDays 0 = (1970, 1, 1) := by decide
example : civilFromDays (daysFromCivil 2023 10 25) = (2023, 10, 25) := by decide
example : pyWeekday (daysFromCivil 2023 10 25) = 2 := by decide
example : pyWeekday (daysFromCivil 2024 1 7) = 6 := by decide
example : secondSundayMarchOrd 2024 = daysFromCivil 2024 3 10 := by decide
example : firstSundayNovOrd 2023 = daysFromCivil 2023 11 5 := by decide
example : nyClassifyLocal (daysFromCivil 2024 3 10) (2 * 3600 + 1800) = .skipped := by decide
example : nyClassifyLocal (daysFromCivil 2023 11 5) (3600 + 1800) = .repeated := by decide
example : nyClassifyLocal (daysFromCivil 2023 10 26) (14 * 3600 + 1800) = .unique (-240) := by
  decide
example : nyClassifyLocal (daysFromCivil 2023 11 6) (9 * 3600 + 1800) = .unique (-300) := by
  decide
-- Unix timestamp 1678624200 is 2023-03-12 08:30 EDT (repository test expectation).
example : instantToNY 1678624200 =
    ⟨daysFromCivil 2023 3 12, 8, 30, 0, -240, "America/New_York"⟩ := by decide

/-! ## The timestamp normalizer: `convert_to_et`

The Python function returns a `whenever.ZonedDateTime` or `None`; every error
path prints a message and returns `None`, with library exceptions
(`SkippedTime`, `RepeatedTime`, `TimeZoneNotFoundError`, `ValueError`, and a
catch-all) intercepted at the function boundary.  The embedding computes in
`Except ConvError` (the distinct error paths of the source, by their messages
and exception types) and `convert_to_et` itself collapses this to `Option`,
exactly as the source collapses everything to `None`. -/

/-- The distinct failure paths of `convert_to_et` (print-and-return-None
branches plus caught exceptions). -/
inductive ConvError where
  | ambiguousConversion
  | unsupportedInputType
  | skippedTime
  | repeatedTime
  | timeZoneNotFound
  | parseError
deriving DecidableEq, Repr

/-- `PlainDateTime.assume_tz(zname, disambiguate = 'raise')`: resolve a naive
reading against a named zone, failing on gap/overlap wall times. -/
def assumeTzRaise (p : PlainDT) (zname : String) : Except ConvError ZonedDateTime :=
  match zoneDB zname with
  | none => .error .timeZoneNotFound
  | some tz =>
    match classifyLocal tz p.dateOrd p.secOfDay with
    | .unique off => .ok ⟨p.dateOrd, p.hour, p.minute, p.second, off, zname⟩
    | .skipped => .error .skippedTime
    | .repeated => .error .repeatedTime

/-- `NY_ZONEINFO.convert(date.at(time), disambiguate = 'raise')`: the
civil-time constructor in the fixed target zone. -/
def convertNYRaise (dateOrd : Int) (t : Time) : Except ConvError ZonedDateTime :=
  match nyClassifyLocal dateOrd t.toSec with
  | .unique off => .ok ⟨dateOrd, t.hour, t.minute, t.second, off, "America/New_York"⟩
  | .skipped => .error .skippedTime
  | .repeated => .error .repeatedTime

/-- Branch 2 of `convert_to_et` (a Python `datetime.datetime` input), shared
with the tail of the string branch, which re-enters `convert_to_et` with the
parsed `datetime`.  A naive datetime (`utcOffMin = none`) requires an assumed
source zone and is resolved with `raise` disambiguation then re-expressed in
the target zone; an aware datetime denotes the instant `local - offset` and is
converted directly (the source's three aware sub-paths — stdlib-UTC `tzinfo`,
`ZoneInfo` `tzinfo`, and the `astimezone(utc)` fallback — all produce exactly
this instant before `to_tz`). -/
def convertPy (p : PlainDT) (utcOffMin : Option Int) (tzStr : Option String) :
    Except ConvError ZonedDateTime :=
  match utcOffMin with
  | none =>
    match tzStr with
    | none => .error .ambiguousConversion
    | some z => (assumeTzRaise p z).map (fun zdt => instantToNY zdt.instant)
  | some off => .ok (instantToNY (p.localSec - off * 60))

/-! ### The string branch

String primitives are computed over the character list (`String.toList`;
Python strings index by code point the same way), so that every definition
evaluates by kernel reduction. -/

/-- Split on every occurrence of a character, keeping empty pieces
(Python `s.split(c)` with an explicit separator). -/
def splitCharList (c : Char) : List Char → List (List Char)
  | [] => [[]]
  | x :: xs =>
    let r := splitCharList c xs
    if x = c then [] :: r
    else
      match r with
      | [] => [[x]]
      | h :: t => (x :: h) :: t

/-- `s.split(c)` as strings. -/
def pySplit (c : Char) (s : String) : List String :=
  (splitCharList c s.toList).map List.asString

/-- Python `c in s` for a single character. -/
def pyContains (s : String) (c : Char) : Bool := s.toList.contains c

/-- Occurrences of a character in a string (Python `s.count(c)`). -/
def countChar (s : String) (c : Char) : Nat := s.toList.count c

/-- Python `s.startswith(c)` for a single character. -/
def pyStartsWith (s : String) (c : Char) : Bool := s.toList.head? = some c

/-- Python `s.endswith(c)` for a single character. -/
def pyEndsWith (s : String) (c : Char) : Bool := s.toList.getLast? = some c

/-- The source's crude check that a string looks like an ISO form with an
explicit offset or `Z`
(`'Z' in s or '+' in s or (s.count('-') >= 3 and ... s[10:].startswith('-'))`). -/
def isoHeuristic (s : String) : Bool :=
  pyContains s 'Z' || pyContains s '+' ||
    (decide (3 ≤ countChar s '-') && decide (0 < countChar (s.drop 10) '-') &&
      pyStartsWith (s.drop 10) '-')

/-- Numeric value of a list of decimal digits. -/
def digitsToNat (cs : List Char) : Nat := cs.foldl (fun a c => a * 10 + (c.toNat - 48)) 0

/-- Parse a fixed-width decimal field of the given length. -/
def parseNatField (s : String) (len : Nat) : Option Nat :=
  let cs := s.toList
  if cs.length = len ∧ cs.all Char.isDigit then some (digitsToNat cs) else none

/-- Parse `"YYYY-MM-DD"` to a day ordinal. -/
def parseIsoDate (s : String) : Option Int :=
  match pySplit '-' s with
  | [y, m, d] => do
    let y ← parseNatField y 4
    let m ← parseNatField m 2
    let d ← parseNatField d 2
    pure (daysFromCivil y m d)
  | _ => none

/-- Parse `"HH:MM:SS"` or `"HH:MM"`. -/
def parseIsoTime (s : String) : Option (Nat × Nat × Nat) :=
  match pySplit ':' s with
  | [h, m, sec] => do
    let h ← parseNatField h 2
    let m ← parseNatField m 2
    let sec ← parseNatField sec 2
    pure (h, m, sec)
  | [h, m] => do
    let h ← parseNatField h 2
    let m ← parseNatField m 2
    pure (h, m, 0)
  | _ => none

/-- Parse `"YYYY-MM-DDTHH:MM:SS"`. -/
def parseIsoDateTime (s : String) : Option PlainDT :=
  match pySplit 'T' s with
  | [d, t] => do
    let o ← parseIsoDate d
    let hms ← parseIsoTime t
    pure ⟨o, hms.1, hms.2.1, hms.2.2⟩
  | _ => none

/-- Model of `whenever.OffsetDateTime.parse_common_iso` on the common
`"YYYY-MM-DDTHH:MM:SS±HH:MM"` shape (external library, modelled on the
formats this repository exercises). -/
def parseOffsetIso (s : String) : Option (PlainDT × Int) :=
  let core := fun (dtp offp : String) (sign : Int) =>
    match parseIsoDateTime dtp, pySplit ':' offp with
    | some p, [oh, om] => do
      let oh ← parseNatField oh 2
      let om ← parseNatField om 2
      pure (p, sign * ((oh : Int) * 60 + om))
    | _, _ => none
  match pySplit '+' s with
  | [dtp, offp] => core dtp offp 1
  | [t] =>
    if 6 ≤ t.length ∧ pyStartsWith (t.drop (t.length - 6)) '-' then
      core (t.take (t.length - 6)) (t.drop (t.length - 5)) (-1)
    else none
  | _ => none

/-- Model of `whenever.Instant.parse_common_iso` on `"YYYY-MM-DDTHH:MM:SSZ"`. -/
def parseInstantIso (s : String) : Option Int :=
  if pyEndsWith s 'Z' then
    (parseIsoDateTime s.toList.dropLast.asString).map PlainDT.localSec
  else none

/-- Attempt 1 of the string branch: direct ISO parsing when the heuristic
fires, trying the offset form first and the `Z` form second; both failures
fall through. -/
def isoAttempt (s : String) : Option ZonedDateTime :=
  if isoHeuristic s then
    match parseOffsetIso s with
    | some (p, off) => some (instantToNY (p.localSec - off * 60))
    | none =>
      match parseInstantIso s with
      | some t => some (instantToNY t)
      | none => none
  else none

/-- Nonempty and all digits (Python `str.isdigit` on ASCII). -/
def pyIsDigit (s : String) : Bool :=
  decide (s.toList ≠ []) && s.toList.all Char.isDigit

/-- Attempt 2 of the string branch: the trailing-zone-token heuristic.  The
final whitespace-delimited token is recognized when the string has more than
one token, the token contains `/`, its first `/`-segment is not all digits,
and the token resolves in the zone database (the source validates it by a
dummy `assume_tz` on 2000-01-01T00:00, which resolves uniquely in every
modelled zone). -/
def strTzToken (s : String) : Option String :=
  let parts := pySplit ' ' s
  if 1 < parts.length then
    match parts.getLast? with
    | some last =>
      if pyContains last '/' && !pyIsDigit ((pySplit '/' last).headD "") then
        if (zoneDB last).isSome then some last else none
      else none
    | none => none
  else none

/-- `" ".join(parts[:-1])`: the string with its final token removed. -/
def strDropToken (s : String) : String :=
  String.intercalate " " ((pySplit ' ' s).dropLast)

/-- Model of `pandas.to_datetime` followed by `.to_pydatetime()` (external
lenient parser, §6 of the spec), on the zone-free formats that reach it in
this code path: `"YYYY-MM-DD HH:MM:SS"`, `"YYYY-MM-DD HH:MM"` and
`"YYYY-MM-DD"`.  The second component is the parsed datetime's UTC offset
(`none` = naive, which these formats always are). -/
def parseFlexible (s : String) : Option (PlainDT × Option Int) :=
  match pySplit ' ' s with
  | [d] => (parseIsoDate d).map (fun o => (⟨o, 0, 0, 0⟩, none))
  | [d, t] =>
    match parseIsoDate d, parseIsoTime t with
    | some o, some hms => some (⟨o, hms.1, hms.2.1, hms.2.2⟩, none)
    | _, _ => none
  | _ => none

/-- Branch 4 of `convert_to_et` (string input): ISO attempt, then the
trailing-zone-token split, then the lenient parse of the remaining text and
re-entry through the `datetime` branch.  The assumed zone for the re-entry is,
in priority order: the recognized token, the caller's `original_tz_str`, and —
for a still-naive parse — the target zone itself. -/
def convertStr (s : String) (tzStr : Option String) : Except ConvError ZonedDateTime :=
  match isoAttempt s with
  | some z => .ok z
  | none =>
    match strTzToken s with
    | some tk =>
      match parseFlexible (strDropToken s) with
      | none => .error .parseError
      | some (p, aw) => convertPy p aw (some tk)
    | none =>
      match parseFlexible s with
      | none => .error .parseError
      | some (p, aw) =>
        convertPy p aw
          (match tzStr with
          | some t => some t
          | none => if aw.isNone then some TARGET_TZ_STR else none)

/-- The tagged union of inputs accepted by `convert_to_et` (the `isinstance`
chain of the source, as a closed sum).  `epoch` carries `int(x)` of a numeric
input (fractional seconds truncate). -/
inductive TimestampInput where
  | instant (t : Int)
  | zoned (z : ZonedDateTime)
  | plain (p : PlainDT)
  | pyDatetime (p : PlainDT) (utcOffMin : Option Int)
  | epoch (n : Int)
  | str (s : String)
deriving DecidableEq, Repr

/-- `convert_to_et` before the boundary `try/except`, with each error path a
value.  Note the `PlainDateTime` branch: in the source, the statement
`return timestamp_input.assume_tz(original_tz_str, ...)` (line 74) is
indented into the `if not original_tz_str:` block after its `return None`, so
it is unreachable; a `PlainDateTime` with a supplied source zone falls through
every remaining `isinstance` check to the final `Unsupported timestamp input
type` branch (line 175). -/
def convertToEtEx : TimestampInput → Option String → Except ConvError ZonedDateTime
  | .instant t, _ => .ok (instantToNY t)
  | .zoned z, _ => if z.tz = TARGET_TZ_STR then .ok z else .ok (instantToNY z.instant)
  | .plain _, tzStr =>
    match tzStr with
    | none => .error .ambiguousConversion
    | some _ => .error .unsupportedInputType
  | .pyDatetime p off, tzStr => convertPy p off tzStr
  | .epoch n, _ => .ok (instantToNY n)
  | .str s, tzStr => convertStr s tzStr

/-- `convert_to_et`: the function as seen by callers — every failure is
`None`, no exception escapes. -/
def convert_to_et (inp : TimestampInput) (tzStr : Option String) : Option ZonedDateTime :=
  (convertToEtEx inp tzStr).toOption

instance {ε α : Type} [DecidableEq ε] [DecidableEq α] : DecidableEq (Except ε α) :=
  fun a b =>
    match a, b with
    | .error e, .error f => decidable_of_iff (e = f) (by simp)
    | .ok x, .ok y => decidable_of_iff (x = y) (by simp)
    | .error _, .ok _ => .isFalse (by simp)
    | .ok _, .error _ => .isFalse (by simp)

-- Sanity checks mirroring the repository's own unit tests.
example : convert_to_et (.pyDatetime ⟨daysFromCivil 2023 10 26, 14, 30, 0⟩ none) (some "UTC") =
    some ⟨daysFromCivil 2023 10 26, 10, 30, 0, -240, "America/New_York"⟩ := by decide
example : convertToEtEx (.str "2024-03-10 02:30:00") (some "America/New_York") =
    .error .skippedTime := by decide
example : convertToEtEx (.str "2023-11-05 01:30:00") (some "America/New_York") =
    .error .repeatedTime := by decide
example : convert_to_et (.str "2023-08-15T13:30:00Z") none =
    some ⟨daysFromCivil 2023 8 15, 9, 30, 0, -240, "America/New_York"⟩ := by decide
example : convert_to_et (.str "2023-08-15T15:30:00+02:00") none =
    some ⟨daysFromCivil 2023 8 15, 9, 30, 0, -240, "America/New_York"⟩ := by decide
example : convert_to_et (.epoch 1678624200) none =
    some ⟨daysFromCivil 2023 3 12, 8, 30, 0, -240, "America/New_York"⟩ := by decide
example : convertToEtEx (.plain ⟨daysFromCivil 2023 8 15, 15, 30, 0⟩) none =
    .error .ambiguousConversion := by decide

/-! ## Session window engine (`is_within_time_window`) -/

/-- `MARKET_OPEN_ET_TIME = whenever.Time(9, 30)`. -/
def MARKET_OPEN_ET_TIME : Time := ⟨9, 30, 0⟩

/-- `IB_END_ET_TIME = whenever.Time(10, 30)`. -/
def IB_END_ET_TIME : Time := ⟨10, 30, 0⟩

/-- `WEEKLY_OPEN_SUNDAY_TIME = whenever.Time(18, 0)`. -/
def WEEKLY_OPEN_SUNDAY_TIME : Time := ⟨18, 0, 0⟩

/-- `is_within_time_window(dt_object, start_time, end_time)`: guard on the
target zone (wrong zone returns `False`), then the half-open check, with the
overnight-wrap branch when `start_time > end_time`.  `whenever.Time`'s order
is the order of seconds-of-day. -/
def is_within_time_window (dt : ZonedDateTime) (startT endT : Time) : Bool :=
  if dt.tz ≠ TARGET_TZ_STR then false
  else
    let curr := dt.time
    if startT.toSec ≤ endT.toSec then
      decide (startT.toSec ≤ curr.toSec ∧ curr.toSec < endT.toSec)
    else
      decide (curr.toSec ≥ startT.toSec ∨ curr.toSec < endT.toSec)

/-! ## Data-dependent price retrieval -/

/-- A row of the OHLC frame as consumed by `_get_price_at_time`: the
`'timestamp'` column holds zone-aware datetimes, the `'open'` column the
price (the other OHLC columns play no role in the embedded functions). -/
structure OhlcRow where
  timestamp : ZonedDateTime
  openP : ℚ
deriving DecidableEq, Repr

/-- The rows selected by `ohlc_data_frame[ohlc_data_frame['timestamp'] == target_dt]`:
aware-datetime equality is equality of instants. -/
def matchesOf (target : ZonedDateTime) (df : List OhlcRow) : List OhlcRow :=
  df.filter (fun r => decide (r.timestamp.instant = target.instant))

/-- `_get_price_at_time`: the `'open'` of the first row whose timestamp equals
the target instant (the source logs a warning when more than one row matches
and still uses the first), `none` when no row matches. -/
def get_price_at_time (target : ZonedDateTime) (df : List OhlcRow) : Option ℚ :=
  match matchesOf target df with
  | [] => none
  | r :: _ => some r.openP

/-- `get_weekly_open_price_for_week`: anchor at 18:00 on
`target_date.previous_or_same(SUNDAY)` built with `raise` disambiguation
(which would propagate as an exception — hence `Except`), then an
exact-instant lookup. -/
def get_weekly_open_price_for_week (targetOrd : Int) (df : List OhlcRow) :
    Except ConvError (Option ℚ) :=
  let sunday := prevOrSameSunday targetOrd
  (convertNYRaise sunday WEEKLY_OPEN_SUNDAY_TIME).map (fun a => get_price_at_time a df)

/-! ## `market_data_loader`: record processing

Records are Python dicts; they are embedded as insertion-ordered association
lists over a value type covering the payloads the loader handles.  Dict
assignment replaces the value of an existing key in place or appends a new
binding at the end, exactly as `setField` does. -/

/-- The Python values that appear in the loader's records. -/
inductive PyValue where
  | vStr (s : String)
  | vInt (n : Int)
  | vRat (q : ℚ)
  | vDt (p : PlainDT) (utcOffMin : Option Int)
  | vZdt (z : ZonedDateTime)
  | vNone
deriving DecidableEq, Repr

/-- A Python dict (insertion-ordered). -/
abbrev PyDict := List (String × PyValue)

/-- `record.get(k)`. -/
def getField (r : PyDict) (k : String) : Option PyValue :=
  match r with
  | [] => none
  | (k', v) :: rest => if k' = k then some v else getField rest k

/-- `record[k] = v` on a copy of the dict. -/
def setField (r : PyDict) (k : String) (v : PyValue) : PyDict :=
  match r with
  | [] => [(k, v)]
  | (k', v') :: rest => if k' = k then (k', v) :: rest else (k', v') :: setField rest k v

/-! ### The `pytz` layer used by `parse_timestamp` -/

/-- Outcome of `pytz` `localize(dt, is_dst = None)`. -/
inductive LocRes where
  | resolved (offMin : Int)
  | ambiguous
  | nonExistent
deriving DecidableEq, Repr

/-- `tz.localize(dt, is_dst = None)`: raises on gap/overlap wall times. -/
def pytzLocalizeStrict (tz : TZRule) (p : PlainDT) : LocRes :=
  match classifyLocal tz p.dateOrd p.secOfDay with
  | .unique off => .resolved off
  | .skipped => .nonExistent
  | .repeated => .ambiguous

/-- The zone's standard-time offset (minutes). -/
def stdOffset (tz : TZRule) : Int :=
  match tz with
  | .utc => 0
  | .ny => -300

/-- `tz.localize(dt)` with the default `is_dst = False`: never raises, and
applies the standard-time offset to gap/overlap wall times. -/
def pytzLocalizeDefault (tz : TZRule) (p : PlainDT) : Int :=
  match classifyLocal tz p.dateOrd p.secOfDay with
  | .unique off => off
  | _ => stdOffset tz

/-- The zone identifier string of a modelled zone rule. -/
def tzName (tz : TZRule) : String :=
  match tz with
  | .utc => "UTC"
  | .ny => "America/New_York"

/-- UTC civil reading of an epoch instant (seconds), as produced by
`pandas.to_datetime(n, unit = 's', utc = True)`. -/
def epochToUtcPlain (t : Int) : PlainDT :=
  let hms := secToHMS (t.fmod 86400).toNat
  ⟨t.fdiv 86400, hms.1, hms.2.1, hms.2.2⟩

/-- `parse_timestamp(ts_input, original_tz_if_naive)`: yields an aware or
naive `datetime` (a `PlainDT` with an optional UTC offset) or `None`.
A fractional epoch input truncates to whole seconds at this model's
granularity. -/
def parse_timestamp (ts : PyValue) (origTz : Option String) :
    Option (PlainDT × Option Int) :=
  match ts with
  | .vDt p off =>
    match off, origTz with
    | none, some z =>
      match zoneDB z with
      | none => none
      | some tz => some (p, some (pytzLocalizeDefault tz p))
    | _, _ => some (p, off)
  | .vInt n => some (epochToUtcPlain n, some 0)
  | .vRat q => some (epochToUtcPlain ⌊q⌋, some 0)
  | .vStr s =>
    match parseFlexible s with
    | none => none
    | some (p, aw) =>
      match aw, origTz with
      | none, some z =>
        match zoneDB z with
        | none => none
        | some tz =>
          match pytzLocalizeStrict tz p with
          | .resolved off => some (p, some off)
          | .ambiguous => some (p, none)
          | .nonExistent => none
      | _, _ => some (p, aw)
  | _ => none

/-- The `parsed_dt` computed by one iteration of the `process_data_timestamps`
loop: per-type dispatch on `record.get('timestamp')`, including the
`"... Region/City"` suffix heuristic for strings. -/
def parsedTimestampOf (origTs : Option PyValue) (defaultTz : String) :
    Option (PlainDT × Option Int) :=
  match origTs with
  | some (.vStr s) =>
    let parts := pySplit ' ' s
    let last := parts.getLast?.getD ""
    if 2 < parts.length ∧ pyContains last '/' = true then
      if (zoneDB last).isSome then
        parse_timestamp (.vStr (String.intercalate " " parts.dropLast)) (some last)
      else parse_timestamp (.vStr s) (some defaultTz)
    else parse_timestamp (.vStr s) (some defaultTz)
  | some (.vDt p none) => parse_timestamp (.vDt p none) (some defaultTz)
  | some (.vDt p (some o)) => some (p, some o)
  | some (.vInt n) => parse_timestamp (.vInt n) none
  | some (.vRat q) => parse_timestamp (.vRat q) none
  | _ => none

/-- The value stored under `'timestamp_et'` for one record: the loop body of
`process_data_timestamps` applied to `record.get('timestamp')`.  Always a
converted zoned datetime (`vZdt`) or `vNone`. -/
def timestampEtOf (origTs : Option PyValue) (defaultTz : String) : PyValue :=
  match parsedTimestampOf origTs defaultTz with
  | none => .vNone
  | some (p, off) =>
    match convert_to_et (.pyDatetime p off) (if off.isNone then some defaultTz else none) with
    | some z => .vZdt z
    | none => .vNone

/-- One iteration of the `process_data_timestamps` loop: copy the record and
set `'timestamp_et'`. -/
def process_record (r : PyDict) (defaultTz : String) : PyDict :=
  setField r "timestamp_et" (timestampEtOf (getField r "timestamp") defaultTz)

/-- `process_data_timestamps(raw_data, default_original_tz)`. -/
def process_data_timestamps (raw : List PyDict) (defaultTz : String) : List PyDict :=
  raw.map (fun r => process_record r defaultTz)

/-! ### `calculate_initial_balance` -/

/-- A record as consumed by `calculate_initial_balance`: a dict carrying a
`'timestamp_et'` key (an aware datetime or `None`) and optionally numeric
`'high'`/`'low'` keys — the shape produced by `process_data_timestamps` and
used by the repository's tests.  An absent key and a `None` value coincide
under the source's guards (`'high' in r and r['high'] is not None`). -/
structure IBRecord where
  timestamp_et : Option ZonedDateTime
  high : Option ℚ
  low : Option ℚ
deriving DecidableEq, Repr

/-- Exceptions that escape `calculate_initial_balance` uncaught. -/
inductive PyErr where
  | valueError
  | unknownTimeZone
deriving DecidableEq, Repr

/-- One date's entry of the returned dict. -/
inductive IBDayResult where
  | weekendSkip
  | invalidTimeFormat
  | dstIssue
  | noData (ibStart ibEnd : ZonedDateTime)
  | ok (ibStart ibEnd : ZonedDateTime) (ibHigh ibLow : ℚ)
deriving DecidableEq, Repr

/-- `record['timestamp_et'].astimezone(market_tz).date()` as a day ordinal. -/
def dateInTz (tz : TZRule) (z : ZonedDateTime) : Int :=
  match tz with
  | .utc => (epochToUtcPlain z.instant).dateOrd
  | .ny => (instantToNY z.instant).dateOrd

/-- Append a record to its date's group, keeping first-occurrence order of
dates (Python dict insertion order). -/
def insertGrouped (groups : List (Int × List IBRecord)) (d : Int) (r : IBRecord) :
    List (Int × List IBRecord) :=
  match groups with
  | [] => [(d, [r])]
  | (d', rs) :: rest =>
    if d' = d then (d', rs ++ [r]) :: rest else (d', rs) :: insertGrouped rest d r

/-- The `data_by_date` grouping loop: records with falsy `timestamp_et` are
dropped; the rest group by their civil date in the market zone. -/
def groupByDate (tz : TZRule) (records : List IBRecord) : List (Int × List IBRecord) :=
  records.foldl
    (fun gs r =>
      match r.timestamp_et with
      | some t => insertGrouped gs (dateInTz tz t) r
      | none => gs)
    []

/-- Python `int(s)` on the pieces of an `"HH:MM"` split (sign handled;
`int` raises on anything else, which the source catches). -/
def pyInt? (s : String) : Option Int :=
  match s.toList with
  | '-' :: rest =>
    if rest ≠ [] ∧ rest.all Char.isDigit then some (-(digitsToNat rest : Int)) else none
  | cs => if cs ≠ [] ∧ cs.all Char.isDigit then some (digitsToNat cs) else none

/-- `h, m = map(int, s.split(':'))`: `none` on the `ValueError`s the source
catches (non-integer pieces or a piece count other than two). -/
def parseHM (s : String) : Option (Int × Int) :=
  match pySplit ':' s with
  | [h, m] =>
    match pyInt? h, pyInt? m with
    | some hv, some mv => some (hv, mv)
    | _, _ => none
  | _ => none

/-- Python `max(xs)` over a sequence of numbers: `none` models the
`ValueError` on an empty sequence. -/
def pyMax? (l : List ℚ) : Option ℚ :=
  match l with
  | [] => none
  | x :: xs => some (xs.foldl (fun a b => if b ≤ a then a else b) x)

/-- Python `min(xs)` over a sequence of numbers. -/
def pyMin? (l : List ℚ) : Option ℚ :=
  match l with
  | [] => none
  | x :: xs => some (xs.foldl (fun a b => if a ≤ b then a else b) x)

/-- The filter `ts_et and ib_start_dt_et <= ts_et < ib_end_dt_et` (aware
datetimes compare as instants). -/
def inIB (s e : ZonedDateTime) (r : IBRecord) : Bool :=
  match r.timestamp_et with
  | some t => decide (s.instant ≤ t.instant ∧ t.instant < e.instant)
  | none => false

/-- The tail of the per-date loop once the window bounds `sZ`/`eZ` exist:
filter the date's records to the half-open window, emit the no-data entry on
an empty filter, otherwise the extrema over the present `'high'`/`'low'`
fields — where `max()`/`min()` of an empty sequence raises an uncaught
`ValueError`. -/
def ibExtrema (sZ eZ : ZonedDateTime) (recs : List IBRecord) : Except PyErr IBDayResult :=
  if (recs.filter (inIB sZ eZ)).isEmpty then .ok (.noData sZ eZ)
  else
    match pyMax? ((recs.filter (inIB sZ eZ)).filterMap IBRecord.high),
        pyMin? ((recs.filter (inIB sZ eZ)).filterMap IBRecord.low) with
    | some hi, some lo => .ok (.ok sZ eZ hi lo)
    | _, _ => .error .valueError

/-- The body of the per-date loop of `calculate_initial_balance`: weekend
skip, `"HH:MM"` parsing (caught `ValueError` → per-date entry), the naive
`datetime` constructors (whose hour/minute range check raises an UNCAUGHT
`ValueError`), `localize(is_dst = None)` (caught DST errors → per-date
entry), then the window filter and extrema (`ibExtrema`). -/
def ib_day_result (tz : TZRule) (d : Int) (recs : List IBRecord) (sStr eStr : String) :
    Except PyErr IBDayResult :=
  if 5 ≤ pyWeekday d then .ok .weekendSkip
  else
    match parseHM sStr, parseHM eStr with
    | some (sh, sm), some (eh, em) =>
      if decide (0 ≤ sh ∧ sh ≤ 23) && decide (0 ≤ sm ∧ sm ≤ 59) &&
          decide (0 ≤ eh ∧ eh ≤ 23) && decide (0 ≤ em ∧ em ≤ 59) then
        match pytzLocalizeStrict tz ⟨d, sh.toNat, sm.toNat, 0⟩,
            pytzLocalizeStrict tz ⟨d, eh.toNat, em.toNat, 0⟩ with
        | .resolved so, .resolved eo =>
          ibExtrema ⟨d, sh.toNat, sm.toNat, 0, so, tzName tz⟩
            ⟨d, eh.toNat, em.toNat, 0, eo, tzName tz⟩ recs
        | _, _ => .ok .dstIssue
      else .error .valueError
    | _, _ => .ok .invalidTimeFormat

/-- `calculate_initial_balance(processed_data_et, ib_start_time_str,
ib_end_time_str, market_tz_str)`: `Except` carries the exceptions that
escape the function uncaught. -/
def calculate_initial_balance (records : List IBRecord) (sStr eStr tzStr : String) :
    Except PyErr (List (Int × IBDayResult)) :=
  if records.isEmpty then .ok []
  else
    match zoneDB tzStr with
    | none => .error .unknownTimeZone
    | some tz =>
      (groupByDate tz records).mapM
        (fun g => (ib_day_result tz g.1 g.2 sStr eStr).map (fun r => (g.1, r)))

-- Sanity checks mirroring the repository's loader tests.
example :
    calculate_initial_balance
      [⟨some ⟨daysFromCivil 2023 8 15, 9, 29, 0, -240, "America/New_York"⟩, some 100, some 99⟩,
       ⟨some ⟨daysFromCivil 2023 8 15, 9, 30, 0, -240, "America/New_York"⟩, some 101, some 100⟩,
       ⟨some ⟨daysFromCivil 2023 8 15, 9, 45, 0, -240, "America/New_York"⟩, some 103, some (mkRat 201 2)⟩,
       ⟨some ⟨daysFromCivil 2023 8 15, 10, 29, 0, -240, "America/New_York"⟩, some 102, some (mkRat 203 2)⟩,
       ⟨some ⟨daysFromCivil 2023 8 15, 10, 30, 0, -240, "America/New_York"⟩, some 104, some 103⟩]
      "09:30" "10:30" "America/New_York"
    = .ok [(daysFromCivil 2023 8 15,
        .ok ⟨daysFromCivil 2023 8 15, 9, 30, 0, -240, "America/New_York"⟩
          ⟨daysFromCivil 2023 8 15, 10, 30, 0, -240, "America/New_York"⟩ 103 100)] := by
  decide
example :
    calculate_initial_balance
      [⟨some ⟨daysFromCivil 2023 10 28, 9, 30, 0, -240, "America/New_York"⟩, some 100, some 99⟩]
      "09:30" "10:30" "America/New_York"
    = .ok [(daysFromCivil 2023 10 28, .weekendSkip)] := by decide
example :
    calculate_initial_balance
      [⟨some ⟨daysFromCivil 2023 8 15, 9, 0, 0, -240, "America/New_York"⟩, some 100, some 99⟩]
      "09:30" "10:30" "America/New_York"
    = .ok [(daysFromCivil 2023 8 15,
        .noData ⟨daysFromCivil 2023 8 15, 9, 30, 0, -240, "America/New_York"⟩
          ⟨daysFromCivil 2023 8 15, 10, 30, 0, -240, "America/New_York"⟩)] := by decide

/-! ## Shared lemmas -/

theorem instantToNY_tz (t : Int) : (instantToNY t).tz = "America/New_York" := rfl

theorem getField_setField (r : PyDict) (k q : String) (v : PyValue) :
    getField (setField r k v) q = if k = q then some v else getField r q := by
  induction r with
  | nil => simp [setField, getField]
  | cons hd tl ih =>
    obtain ⟨kh, vh⟩ := hd
    by_cases h1 : kh = k
    · subst h1
      by_cases h2 : kh = q <;> simp [setField, getField, h2]
    · by_cases h2 : kh = q <;> by_cases h3 : k = q <;>
        simp_all [setField, getField]

/-! ## The claims -/

/-- Claim C1 (code_bug): a `whenever.PlainDateTime` with a supplied assumed
source zone is documented (docstring and the repository's own unit test
`test_convert_to_et_whenever_plaindatetime_with_original_tz`) to resolve in
that zone and convert to America/New_York, with `Raise` disambiguation
failures on gap/overlap times; but line 74 of `time_utils.py` is indented
into the early-return branch, so the conversion is dead code and the input
falls through to the `Unsupported timestamp input type` failure.  This
theorem evaluates the embedded code at the failing input. -/
theorem C1_plain_datetime_dead_code :
    convertToEtEx (.plain ⟨daysFromCivil 2023 8 15, 15, 30, 0⟩) (some "UTC") =
      .error .unsupportedInputType := by decide

/-- Claim C2, counterexample: a calendar string with no trailing zone token
and no caller-supplied zone does NOT fail with `AmbiguousConversion` — the
code silently assumes the target zone and produces a canonical instant
(2023-10-26 14:30 EDT). -/
theorem C2_counterexample :
    convertToEtEx (.str "2023-10-26 14:30:00") none =
      .ok ⟨daysFromCivil 2023 10 26, 14, 30, 0, -240, "America/New_York"⟩ := by decide

/-- Claim C2, amended: for a calendar string in which no trailing zone token
is recognized and whose direct ISO attempt fails, when the caller supplies no
zone and the lenient parse yields a naive civil datetime, normalization does
not fail with `AmbiguousConversion`: the code substitutes the target zone
`America/New_York` itself as the assumed source zone and resolves the civil
time there (with `raise` disambiguation). -/
theorem C2_amended (s : String) (p : PlainDT)
    (hiso : isoAttempt s = none) (htok : strTzToken s = none)
    (hparse : parseFlexible s = some (p, none)) :
    convertToEtEx (.str s) none = convertPy p none (some TARGET_TZ_STR) := by
  simp only [convertToEtEx, convertStr, hiso, htok, hparse]
  rfl

/-- Witness for C2_amended at the counterexample's input string. -/
theorem C2_witness :
    convertToEtEx (.str "2023-10-26 14:30:00") none =
      convertPy ⟨daysFromCivil 2023 10 26, 14, 30, 0⟩ none (some TARGET_TZ_STR) :=
  C2_amended _ _ (by decide) (by decide) (by decide)

/-- Claim C3, counterexample: with two frame rows at the same instant, the
exact-instant lookup does not return `None` — it returns the first row's
`'open'` (the source logs a warning and uses `match['open'].iloc[0]`). -/
theorem C3_counterexample :
    (matchesOf ⟨daysFromCivil 2024 1 8, 0, 0, 0, -300, "America/New_York"⟩
        [⟨⟨daysFromCivil 2024 1 8, 0, 0, 0, -300, "America/New_York"⟩, 100⟩,
         ⟨⟨daysFromCivil 2024 1 8, 0, 0, 0, -300, "America/New_York"⟩, 101⟩]).length = 2 ∧
    get_price_at_time ⟨daysFromCivil 2024 1 8, 0, 0, 0, -300, "America/New_York"⟩
        [⟨⟨daysFromCivil 2024 1 8, 0, 0, 0, -300, "America/New_York"⟩, 100⟩,
         ⟨⟨daysFromCivil 2024 1 8, 0, 0, 0, -300, "America/New_York"⟩, 101⟩] = some 100 := by
  decide

/-- Claim C3, amended: `_get_price_at_time` returns the `'open'` field of the
FIRST record whose canonical instant equals the anchor exactly (logging a
warning when more than one record matches), and `None` exactly when zero
records match. -/
theorem C3_amended (target : ZonedDateTime) (df : List OhlcRow) :
    get_price_at_time target df = (matchesOf target df).head?.map OhlcRow.openP := by
  unfold get_price_at_time
  cases matchesOf target df <;> simp

/-- Claim C4: for an instant expressed in the target zone, when
`start < end` the window test is the half-open wall-clock check
`start <= t < end`, and when `start > end` (overnight wrap) it is
`t >= start or t < end`. -/
theorem C4_window_semantics (dt : ZonedDateTime) (s e : Time)
    (htz : dt.tz = TARGET_TZ_STR) :
    (s.toSec < e.toSec →
      (is_within_time_window dt s e = true ↔
        s.toSec ≤ dt.time.toSec ∧ dt.time.toSec < e.toSec)) ∧
    (e.toSec < s.toSec →
      (is_within_time_window dt s e = true ↔
        dt.time.toSec ≥ s.toSec ∨ dt.time.toSec < e.toSec)) := by
  unfold is_within_time_window
  simp only [htz]
  constructor
  · intro hlt
    simp [Nat.le_of_lt hlt]
  · intro hgt
    simp [Nat.not_le.mpr hgt]

/-- Witness for C4_window_semantics: 09:45 is inside the `[09:30, 10:30)`
window on a standard-time weekday. -/
theorem C4_witness :
    is_within_time_window ⟨daysFromCivil 2024 1 10, 9, 45, 0, -300, "America/New_York"⟩
      MARKET_OPEN_ET_TIME IB_END_ET_TIME = true :=
  ((C4_window_semantics ⟨daysFromCivil 2024 1 10, 9, 45, 0, -300, "America/New_York"⟩
      MARKET_OPEN_ET_TIME IB_END_ET_TIME rfl).1 (by decide)).mpr (by decide)

/-- Claim C5 (code_bug): the source catches the `ValueError` of
`map(int, ...)` and records a per-date error entry, and the spec (§7) scopes
every wall-time-string failure to one date; but an `"HH:MM"` string whose
pieces parse as integers out of range (here hour 99) reaches the naive
`datetime.datetime(...)` constructor outside the `try`, whose `ValueError`
escapes uncaught and aborts the whole batch.  This theorem evaluates the
embedded code at the failing input. -/
theorem C5_hour_range_escapes :
    calculate_initial_balance
      [⟨some ⟨daysFromCivil 2023 10 25, 9, 45, 0, -240, "America/New_York"⟩, some 100, some 99⟩]
      "99:00" "10:30" "America/New_York" = .error .valueError := by decide

/-- Claim C9: a window whose start equals its end is empty — the test is
routed to the standard half-open branch `start <= t < start`, which no
wall-clock time satisfies (and a foreign-zone instant is rejected anyway). -/
theorem C9_equal_bounds_empty (dt : ZonedDateTime) (s : Time) :
    is_within_time_window dt s s = false := by
  unfold is_within_time_window
  split
  · rfl
  · simp

theorem convertPy_ok_tz (p : PlainDT) (off : Option Int) (tzStr : Option String)
    (z : ZonedDateTime) (h : convertPy p off tzStr = .ok z) :
    z.tz = "America/New_York" := by
  cases off with
  | some o =>
    rw [← Except.ok.inj h]
    exact instantToNY_tz _
  | none =>
    cases tzStr with
    | none => exact Except.noConfusion h
    | some zn =>
      cases hA : assumeTzRaise p zn with
      | error e =>
        have h2 : Except.map (fun zdt => instantToNY zdt.instant) (assumeTzRaise p zn) =
            Except.ok z := h
        rw [hA] at h2
        exact Except.noConfusion h2
      | ok w =>
        have h2 : Except.map (fun zdt => instantToNY zdt.instant) (assumeTzRaise p zn) =
            Except.ok z := h
        rw [hA] at h2
        rw [← Except.ok.inj h2]
        exact instantToNY_tz _

theorem isoAttempt_ok_tz (s : String) (z : ZonedDateTime)
    (h : isoAttempt s = some z) : z.tz = "America/New_York" := by
  unfold isoAttempt at h
  split at h
  · split at h
    · rw [← Option.some.inj h]
      exact instantToNY_tz _
    · split at h
      · rw [← Option.some.inj h]
        exact instantToNY_tz _
      · exact Option.noConfusion h
  · exact Option.noConfusion h

theorem convertStr_ok_tz (s : String) (tzStr : Option String) (z : ZonedDateTime)
    (h : convertStr s tzStr = .ok z) : z.tz = "America/New_York" := by
  unfold convertStr at h
  cases hI : isoAttempt s with
  | some w =>
    rw [hI] at h
    rw [← Except.ok.inj h]
    exact isoAttempt_ok_tz s w hI
  | none =>
    rw [hI] at h
    cases hT : strTzToken s with
    | some tk =>
      rw [hT] at h
      cases hP : parseFlexible (strDropToken s) with
      | none =>
        rw [hP] at h
        exact Except.noConfusion h
      | some pa =>
        rw [hP] at h
        obtain ⟨p, aw⟩ := pa
        exact convertPy_ok_tz _ _ _ _ h
    | none =>
      rw [hT] at h
      cases hP : parseFlexible s with
      | none =>
        rw [hP] at h
        exact Except.noConfusion h
      | some pa =>
        rw [hP] at h
        obtain ⟨p, aw⟩ := pa
        exact convertPy_ok_tz _ _ _ _ h

/-- Claim C6: `convert_to_et` is a total function of its input — it returns
either a zoned datetime in the target zone `America/New_York` or `None`
(every error path of the source is a `None`-returning branch or an exception
caught at the boundary `try/except`); no exception escapes. -/
theorem C6_total_option (inp : TimestampInput) (tzStr : Option String) (z : ZonedDateTime)
    (h : convert_to_et inp tzStr = some z) : z.tz = TARGET_TZ_STR := by
  have h' : convertToEtEx inp tzStr = .ok z := by
    unfold convert_to_et at h
    cases hE : convertToEtEx inp tzStr with
    | ok w => rw [hE] at h; simp only [Except.toOption, Option.some.injEq] at h; rw [h]
    | error e => rw [hE] at h; simp [Except.toOption] at h
  show z.tz = "America/New_York"
  cases inp with
  | instant t =>
    simp only [convertToEtEx, Except.ok.injEq] at h'
    rw [← h']
    exact instantToNY_tz _
  | zoned w =>
    simp only [convertToEtEx] at h'
    split at h'
    case _ hc =>
      simp only [Except.ok.injEq] at h'
      rw [← h']
      exact hc
    case _ =>
      simp only [Except.ok.injEq] at h'
      rw [← h']
      exact instantToNY_tz _
  | plain p => simp only [convertToEtEx] at h'; cases tzStr <;> simp at h'
  | pyDatetime p off => exact convertPy_ok_tz _ _ _ _ h'
  | epoch n =>
    simp only [convertToEtEx, Except.ok.injEq] at h'
    rw [← h']
    exact instantToNY_tz _
  | str s => exact convertStr_ok_tz _ _ _ h'

/-- Witness for C6_total_option at a concrete epoch input. -/
theorem C6_witness : (instantToNY 1678624200).tz = TARGET_TZ_STR :=
  C6_total_option (.epoch 1678624200) none _ rfl

/-- Claim C7, counterexample: a weekday date with a nonempty in-window record
set need not yield a daily result at all — when every in-window record lacks
the `'high'` (and `'low'`) field, `max()` is applied to an empty sequence and
the uncaught `ValueError` aborts the whole computation.  The first conjunct
shows the single record lies inside the constructed `[09:30, 10:30)` bounds. -/
theorem C7_counterexample :
    inIB ⟨daysFromCivil 2023 10 25, 9, 30, 0, -240, "America/New_York"⟩
      ⟨daysFromCivil 2023 10 25, 10, 30, 0, -240, "America/New_York"⟩
      ⟨some ⟨daysFromCivil 2023 10 25, 9, 45, 0, -240, "America/New_York"⟩, none, none⟩ = true ∧
    calculate_initial_balance
      [⟨some ⟨daysFromCivil 2023 10 25, 9, 45, 0, -240, "America/New_York"⟩, none, none⟩]
      "09:30" "10:30" "America/New_York" = .error .valueError := by decide

/-- Claim C7, amended: on a weekday date with successfully constructed window
bounds, if the filtered in-window set is empty the daily result carries null
extrema with the no-data status; if at least one in-window record carries a
numeric `'high'` and at least one a numeric `'low'`, the result reports
`high` as the maximum of the present `'high'` fields and `low` as the minimum
of the present `'low'` fields, ignoring records missing the field (when the
in-window set is nonempty but one of the fields is missing from every record,
`max()`/`min()` raises instead — see the counterexample). -/
theorem C7_extrema (tz : TZRule) (d : Int) (recs : List IBRecord) (sStr eStr : String)
    (sh sm eh em so eo : Int) (sZ eZ : ZonedDateTime)
    (hwd : pyWeekday d < 5)
    (hs : parseHM sStr = some (sh, sm)) (he : parseHM eStr = some (eh, em))
    (hrange : 0 ≤ sh ∧ sh ≤ 23 ∧ 0 ≤ sm ∧ sm ≤ 59 ∧ 0 ≤ eh ∧ eh ≤ 23 ∧ 0 ≤ em ∧ em ≤ 59)
    (hls : pytzLocalizeStrict tz ⟨d, sh.toNat, sm.toNat, 0⟩ = .resolved so)
    (hle : pytzLocalizeStrict tz ⟨d, eh.toNat, em.toNat, 0⟩ = .resolved eo)
    (hsZ : sZ = ⟨d, sh.toNat, sm.toNat, 0, so, tzName tz⟩)
    (heZ : eZ = ⟨d, eh.toNat, em.toNat, 0, eo, tzName tz⟩) :
    (recs.filter (inIB sZ eZ) = [] →
      ib_day_result tz d recs sStr eStr = .ok (.noData sZ eZ)) ∧
    (∀ hi lo, pyMax? ((recs.filter (inIB sZ eZ)).filterMap IBRecord.high) = some hi →
      pyMin? ((recs.filter (inIB sZ eZ)).filterMap IBRecord.low) = some lo →
      ib_day_result tz d recs sStr eStr = .ok (.ok sZ eZ hi lo)) := by
  subst hsZ heZ
  unfold ib_day_result
  rw [if_neg (by omega)]
  simp only [hs, he]
  rw [if_pos (by simp only [Bool.and_eq_true, decide_eq_true_eq]; omega)]
  simp only [hls, hle]
  constructor
  · intro hf
    unfold ibExtrema
    rw [hf]
    rfl
  · intro hi lo hmax hmin
    unfold ibExtrema
    cases hfe : recs.filter (inIB ⟨d, sh.toNat, sm.toNat, 0, so, tzName tz⟩
        ⟨d, eh.toNat, em.toNat, 0, eo, tzName tz⟩) with
    | nil =>
      rw [hfe] at hmax
      exact Option.noConfusion hmax
    | cons a as =>
      rw [hfe] at hmax hmin
      simp only [List.isEmpty_cons, Bool.false_eq_true, if_false, hmax, hmin]

/-- Witness for C7_extrema: one record at 09:45 with high 103 / low 100
inside `[09:30, 10:30)` on a weekday yields those extrema. -/
theorem C7_witness :
    ib_day_result .ny (daysFromCivil 2023 8 15)
      [⟨some ⟨daysFromCivil 2023 8 15, 9, 45, 0, -240, "America/New_York"⟩, some 103, some 100⟩]
      "09:30" "10:30" =
      .ok (.ok ⟨daysFromCivil 2023 8 15, 9, 30, 0, -240, "America/New_York"⟩
        ⟨daysFromCivil 2023 8 15, 10, 30, 0, -240, "America/New_York"⟩ 103 100) :=
  (C7_extrema .ny (daysFromCivil 2023 8 15) _ "09:30" "10:30" 9 30 10 30 (-240) (-240)
      ⟨daysFromCivil 2023 8 15, 9, 30, 0, -240, "America/New_York"⟩
      ⟨daysFromCivil 2023 8 15, 10, 30, 0, -240, "America/New_York"⟩
      (by decide) (by decide) (by decide) (by decide) (by decide) (by decide)
      (by decide) (by decide)).2 103 100 (by decide) (by decide)

/-- Claim C8: the weekly-open anchor date is the most recent Sunday on or
before the target date (the date itself when it is a Sunday), the lookup is
an exact-instant `price_at` at 18:00 ET on that Sunday, and consequently the
weekly-open price for any date equals the weekly-open price for its anchor
Sunday. -/
theorem C8_weekly_anchor (o : Int) (df : List OhlcRow) :
    pyWeekday (prevOrSameSunday o) = 6 ∧
    prevOrSameSunday o ≤ o ∧ o - prevOrSameSunday o < 7 ∧
    (pyWeekday o = 6 → prevOrSameSunday o = o) ∧
    get_weekly_open_price_for_week o df =
      (convertNYRaise (prevOrSameSunday o) WEEKLY_OPEN_SUNDAY_TIME).map
        (fun a => get_price_at_time a df) ∧
    get_weekly_open_price_for_week o df =
      get_weekly_open_price_for_week (prevOrSameSunday o) df := by
  have hid : prevOrSameSunday (prevOrSameSunday o) = prevOrSameSunday o := by
    unfold prevOrSameSunday pyWeekday
    omega
  refine ⟨?_, ?_, ?_, ?_, rfl, ?_⟩
  · unfold prevOrSameSunday pyWeekday
    omega
  · unfold prevOrSameSunday pyWeekday
    omega
  · unfold prevOrSameSunday pyWeekday
    omega
  · intro h
    unfold pyWeekday at h
    unfold prevOrSameSunday pyWeekday
    omega
  · unfold get_weekly_open_price_for_week
    rw [hid]

/-- Witness for C8_weekly_anchor's Sunday-fixed-point clause at a concrete
Sunday (2024-01-07). -/
theorem C8_witness :
    prevOrSameSunday (daysFromCivil 2024 1 7) = daysFromCivil 2024 1 7 :=
  (C8_weekly_anchor (daysFromCivil 2024 1 7) []).2.2.2.1 (by decide)

theorem timestampEtOf_shape (ts : Option PyValue) (tzS : String) :
    (∃ z, timestampEtOf ts tzS = .vZdt z) ∨ timestampEtOf ts tzS = .vNone := by
  cases hp : parsedTimestampOf ts tzS with
  | none =>
    right
    unfold timestampEtOf
    rw [hp]
  | some po =>
    obtain ⟨p, off⟩ := po
    have hbody : timestampEtOf ts tzS =
        match convert_to_et (.pyDatetime p off) (if off.isNone then some tzS else none) with
        | some z => PyValue.vZdt z
        | none => PyValue.vNone := by
      unfold timestampEtOf
      rw [hp]
    rw [hbody]
    cases hc : convert_to_et (.pyDatetime p off) (if off.isNone then some tzS else none) with
    | none => exact Or.inr rfl
    | some z => exact Or.inl ⟨z, rfl⟩

/-- Claim C10: `process_data_timestamps` returns a list of the same length in
the same order; the i-th output record is the i-th input record with the
single key `'timestamp_et'` set (every other key and value is preserved; the
input record itself is copied, not mutated), and the stored value is either a
converted zoned datetime or `None`. -/
theorem C10_process_frame (raw : List PyDict) (defaultTz : String) :
    (process_data_timestamps raw defaultTz).length = raw.length ∧
    ∀ (i : Nat) (r : PyDict), raw[i]? = some r →
      (process_data_timestamps raw defaultTz)[i]? = some (process_record r defaultTz) ∧
      (∀ k, k ≠ "timestamp_et" →
        getField (process_record r defaultTz) k = getField r k) ∧
      getField (process_record r defaultTz) "timestamp_et" =
        some (timestampEtOf (getField r "timestamp") defaultTz) ∧
      ((∃ z, timestampEtOf (getField r "timestamp") defaultTz = .vZdt z) ∨
        timestampEtOf (getField r "timestamp") defaultTz = .vNone) := by
  constructor
  · simp [process_data_timestamps]
  · intro i r hr
    refine ⟨?_, ?_, ?_, timestampEtOf_shape _ _⟩
    · unfold process_data_timestamps
      rw [List.getElem?_map, hr]
      rfl
    · intro k hk
      unfold process_record
      rw [getField_setField, if_neg (fun hh => hk hh.symm)]
    · unfold process_record
      rw [getField_setField, if_pos rfl]

/-- Witness for C10_process_frame at a one-record batch. -/
theorem C10_witness :
    (process_data_timestamps
        [[("timestamp", PyValue.vStr "2023-10-25 09:30:00"), ("open", PyValue.vRat 150)]]
        "America/New_York")[0]? =
      some (process_record
        [("timestamp", PyValue.vStr "2023-10-25 09:30:00"), ("open", PyValue.vRat 150)]
        "America/New_York") :=
  (((C10_process_frame
      [[("timestamp", PyValue.vStr "2023-10-25 09:30:00"), ("open", PyValue.vRat 150)]]
      "America/New_York").2 0 _ rfl)).1

end LiquidityModels
